import Mathlib

/-!
Shallow embedding of `parler/cache.py` (django-parler's translation cache).

Python dicts are modelled as association lists (`Record`), Python values as
the inductive `Value` (with Python truthiness made explicit), the external
Django cache backend as a `Store` carrying both its key/value data and a log
of every backend call (get/set/delete), and the per-instance
`_translations_cache` dict as a function from language code to an optional
entry.  Every function of the module is translated as a pure function that
threads the store (and, for the read path, the per-instance cache) through.
-/

namespace Parler

/-- Embeds the translated model class (`instance._translations_model` /
`translation.__class__`): its `_meta.app_label`, its `__name__`, and the
declared translated field names returned by `get_translated_fields()`. -/
structure TModel where
  app_label : String
  name : String
  translated_fields : List String
deriving DecidableEq

/-- Embeds the shared model instance: `pk` (`none` models Python `None`,
`some 0` a falsy zero key), `_state.adding`, `_translations_model`, and the
result of `get_available_languages()`. -/
structure Instance where
  pk : Option Nat
  adding : Bool
  translations_model : TModel
  available_languages : List String
deriving DecidableEq

/-- Python truthiness of `instance.pk` (`None` and `0` are falsy). -/
def Instance.pkTruthy (i : Instance) : Bool :=
  match i.pk with
  | none => false
  | some n => n != 0

/-- The numeric value of the primary key (only meaningful when truthy);
`long(master_id)` in the key builder. -/
def Instance.pkNat (i : Instance) : Nat :=
  (i.pk).getD 0

/-- Embeds the Python values stored in cached translation records. -/
inductive Value where
  | vbool : Bool → Value
  | vint : Int → Value
  | vstr : String → Value
  | vnone : Value
  | vobj : Instance → Value
deriving DecidableEq

/-- Python truthiness of a `Value` (model instances are truthy). -/
def Value.truthy : Value → Bool
  | .vbool b => b
  | .vint n => n != 0
  | .vstr s => s != ""
  | .vnone => false
  | .vobj _ => true

/-- A Python dict of field name to value, as an association list. -/
abbrev Record := List (String × Value)

/-- Embeds `dict.get(key)` returning the first binding, if any. -/
def Record.get : Record → String → Option Value
  | [], _ => none
  | (k, v) :: rest, key => if k == key then some v else Record.get rest key

/-- Embeds Python dict assignment `d[key] = v`: replace an existing binding
in place, else append. -/
def Record.set : Record → String → Value → Record
  | [], key, v => [(key, v)]
  | (k, w) :: rest, key, v =>
      if k == key then (k, v) :: rest else (k, w) :: Record.set rest key v

/-- Embeds `dict.get('__FALLBACK__', False)` followed by Python truthiness:
the test deciding whether a cached record is the negative marker. -/
def Record.fallbackFlag (r : Record) : Bool :=
  ((Record.get r "__FALLBACK__").getD (.vbool false)).truthy

/-- Embeds the timeout argument of `cache.set`: either the
`DEFAULT_TIMEOUT` sentinel or an explicit number of seconds. -/
inductive Timeout where
  | defaultTimeout : Timeout
  | seconds : Int → Timeout
deriving DecidableEq

/-- One call to the external Django cache backend. -/
inductive CacheOp where
  | get : String → CacheOp
  | set : String → Record → Timeout → CacheOp
  | del : String → CacheOp
deriving DecidableEq

/-- The external cache backend: its key/value data together with the log of
every backend call issued so far. -/
structure Store where
  data : String → Option Record
  log : List CacheOp

/-- Embeds `cache.get(key)`: returns the stored record (if any) and logs
the call. -/
def Store.get (st : Store) (key : String) : Option Record × Store :=
  (st.data key, { st with log := st.log ++ [CacheOp.get key] })

/-- Embeds `cache.set(key, value, timeout)`. -/
def Store.set (st : Store) (key : String) (value : Record) (t : Timeout) : Store :=
  { data := fun k => if k == key then some value else st.data k,
    log := st.log ++ [CacheOp.set key value t] }

/-- Embeds `cache.delete(key)`. -/
def Store.delete (st : Store) (key : String) : Store :=
  { data := fun k => if k == key then none else st.data k,
    log := st.log ++ [CacheOp.del key] }

/-- Embeds `class IsMissing`, the type of the `MISSING` sentinel. -/
structure IsMissing where
deriving DecidableEq

/-- Embeds `IsMissing.__bool__` (Python 3): always `False`. -/
def IsMissing.boolMethod (_ : IsMissing) : Bool := false

/-- Embeds `IsMissing.__nonzero__` (Python 2): always `False`. -/
def IsMissing.nonzeroMethod (_ : IsMissing) : Bool := false

/-- Embeds the module-level sentinel `MISSING = IsMissing()`. -/
def MISSING : IsMissing := {}

/-- A constructed translation model instance, as built by
`get_cached_translation` from resolved values
(`instance._translations_model(**values)` with `_state.adding = False`). -/
structure TranslationInstance where
  model : TModel
  values : Record
  adding : Bool
deriving DecidableEq

/-- An entry of the per-instance `_translations_cache` dict: either the
`MISSING` sentinel or a translation object placed there by other code. -/
inductive TransEntry where
  | missing : TransEntry
  | entry : TranslationInstance → TransEntry
deriving DecidableEq

/-- Python truthiness of a `_translations_cache` entry: `MISSING` evaluates
through `IsMissing.__bool__`, real translation objects are truthy. -/
def TransEntry.pyBool : TransEntry → Bool
  | .missing => MISSING.boolMethod
  | .entry _ => true

/-- The per-instance `_translations_cache` dict, keyed by language code. -/
abbrev TransCache := String → Option TransEntry

/-- Dict assignment on the per-instance translations cache. -/
def TransCache.set (tc : TransCache) (key : String) (e : TransEntry) : TransCache :=
  fun k => if k == key then some e else tc k

/-- Embeds `get_language_settings(language_code)`: the relevant part of the
returned dict is its `fallback` language code. -/
structure LangDict where
  fallback : String
deriving DecidableEq

/-- Embeds the externally supplied configuration: the global
`PARLER_ENABLE_CACHING` flag and the language settings table. -/
structure Settings where
  PARLER_ENABLE_CACHING : Bool
  language_settings : String → LangDict

/-- Embeds `get_language_settings` from `parler.utils`. -/
def get_language_settings (s : Settings) (language_code : String) : LangDict :=
  s.language_settings language_code

/-- Embeds `get_translation_cache_key(translated_model, master_id, language_code)`:
`'parler.{0}.{1}.{2}.{3}'.format(app_label, __name__, long(master_id), language_code)`. -/
def get_translation_cache_key (translated_model : TModel) (master_id : Nat)
    (language_code : String) : String :=
  "parler." ++ translated_model.app_label ++ "." ++ translated_model.name ++ "."
    ++ Nat.repr master_id ++ "." ++ language_code

/-- Embeds `get_object_cache_keys(instance)`. -/
def get_object_cache_keys (inst : Instance) : List String :=
  if !inst.pkTruthy || inst.adding then []
  else
    inst.available_languages.map fun language =>
      get_translation_cache_key inst.translations_model inst.pkNat language

/-- Embeds `_get_cached_values(instance, language_code, use_fallback)`.
Returns the resolved values (`none` for Python `None`), the store after the
logged `cache.get` calls, and the updated `_translations_cache`.  The
`match`/`isEmpty` pair models `if not values: return None`, which covers
both a missing key and a stored falsy (empty) dict. -/
def _get_cached_values (s : Settings) (st : Store) (tc : TransCache)
    (inst : Instance) (language_code : String) (use_fallback : Bool) :
    Option Record × Store × TransCache :=
  if !s.PARLER_ENABLE_CACHING || !inst.pkTruthy || inst.adding then
    (none, st, tc)
  else
    let key := get_translation_cache_key inst.translations_model
      inst.pkNat language_code
    let res := Store.get st key
    let st := res.2
    match res.1 with
    | none => (none, st, tc)
    | some values =>
      if values.isEmpty then (none, st, tc)
      else if Record.fallbackFlag values then
        let tc := tc.set language_code TransEntry.missing
        if _h : use_fallback then
          let lang_dict := get_language_settings s language_code
          if lang_dict.fallback != language_code then
            _get_cached_values s st tc inst lang_dict.fallback false
          else
            (none, st, tc)
        else
          (none, st, tc)
      else
        (some (Record.set (Record.set values "master" (.vobj inst))
          "language_code" (.vstr language_code)), st, tc)
termination_by use_fallback.toNat
decreasing_by simp [_h]

/-- Python truthiness of the value returned by `_get_cached_values`
(`None` or a dict). -/
def pyTruthyValues : Option Record → Bool
  | none => false
  | some r => !r.isEmpty

/-- Embeds `get_cached_translation(instance, language_code, use_fallback)`. -/
def get_cached_translation (s : Settings) (st : Store) (tc : TransCache)
    (inst : Instance) (language_code : String) (use_fallback : Bool) :
    Option TranslationInstance × Store × TransCache :=
  let res := _get_cached_values s st tc inst language_code use_fallback
  if !pyTruthyValues res.1 then (none, res.2.1, res.2.2)
  else
    (some { model := inst.translations_model, values := res.1.getD [],
            adding := false },
     res.2.1, res.2.2)

/-- Embeds `get_cached_translated_field(instance, language_code, field_name,
use_fallback)`; the result is a Python value, with `Value.vnone` playing
Python `None` (both for "no resolved values" and `values.get(field_name, None)`
on an absent field). -/
def get_cached_translated_field (s : Settings) (st : Store) (tc : TransCache)
    (inst : Instance) (language_code : String) (field_name : String)
    (use_fallback : Bool) : Value × Store × TransCache :=
  let res := _get_cached_values s st tc inst language_code use_fallback
  if !pyTruthyValues res.1 then (.vnone, res.2.1, res.2.2)
  else ((Record.get (res.1.getD []) field_name).getD .vnone, res.2.1, res.2.2)

/-- A translation object passed to the write path: `translation.__class__`,
`translation.id`, `translation.master_id`, `translation.language_code`, and
`getattr(translation, name)` for the declared translated fields. -/
structure Translation where
  model : TModel
  id : Value
  master_id : Nat
  language_code : String
  attrs : String → Value

/-- Embeds `_cache_translation(translation, timeout)`. -/
def _cache_translation (s : Settings) (st : Store) (translation : Translation)
    (timeout : Timeout) : Store :=
  if !s.PARLER_ENABLE_CACHING then st
  else
    let fields := translation.model.translated_fields
    let values := fields.foldl
      (fun acc name => Record.set acc name (translation.attrs name))
      [("id", translation.id)]
    let key := get_translation_cache_key translation.model
      translation.master_id translation.language_code
    Store.set st key values timeout

/-- Embeds `_cache_translation_needs_fallback(instance, language_code, timeout)`. -/
def _cache_translation_needs_fallback (s : Settings) (st : Store)
    (inst : Instance) (language_code : String) (timeout : Timeout) : Store :=
  if !s.PARLER_ENABLE_CACHING || !inst.pkTruthy || inst.adding then st
  else
    Store.set st
      (get_translation_cache_key inst.translations_model inst.pkNat
        language_code)
      [("__FALLBACK__", .vbool true)] timeout

/-- Embeds `_delete_cached_translations(shared_model)`.  Note the source has
no `PARLER_ENABLE_CACHING` check here. -/
def _delete_cached_translations (st : Store) (shared_model : Instance) : Store :=
  (get_object_cache_keys shared_model).foldl
    (fun acc key => Store.delete acc key) st

/-- Embeds `_delete_cached_translation(translation)`. -/
def _delete_cached_translation (s : Settings) (st : Store)
    (translation : Translation) : Store :=
  if !s.PARLER_ENABLE_CACHING then st
  else
    Store.delete st
      (get_translation_cache_key translation.model translation.master_id
        translation.language_code)

/-- The decimal digit characters of `n`, most significant first. -/
def natChars (n : Nat) : List Char :=
  if h : n < 10 then [Nat.digitChar n]
  else natChars (n / 10) ++ [Nat.digitChar (n % 10)]
termination_by n
decreasing_by exact Nat.div_lt_self (by omega) (by omega)

/-- The separator of the cache key is absent from a string's characters. -/
def dotFree (s : String) : Bool := s.data.all (fun c => c != '.')

/-! Concrete fixtures used by witnesses and counterexamples. -/

/-- A concrete translated model. -/
def blogModel : TModel := ⟨"blog", "ArticleTranslation", ["title"]⟩

/-- A concrete persisted shared-model instance. -/
def article42 : Instance := ⟨some 42, false, blogModel, ["en", "fr"]⟩

/-- A concrete shared-model instance with no primary key yet. -/
def draftArticle : Instance := ⟨none, true, blogModel, ["en"]⟩

/-- The cache key of `article42`'s English translation. -/
def enKey : String := get_translation_cache_key blogModel 42 "en"

/-- The cache key of `article42`'s French translation. -/
def frKey : String := get_translation_cache_key blogModel 42 "fr"

/-- Settings with caching enabled; every language falls back to itself
except French, which falls back to English. -/
def settingsOn : Settings :=
  ⟨true, fun l => if l == "fr" then ⟨"en"⟩ else ⟨l⟩⟩

/-- Settings with caching globally disabled. -/
def settingsOff : Settings :=
  ⟨false, fun l => if l == "fr" then ⟨"en"⟩ else ⟨l⟩⟩

/-- An empty per-instance translations cache. -/
def emptyTC : TransCache := fun _ => none

/-- A store holding nothing, with an empty call log. -/
def cleanStore : Store := ⟨fun _ => none, []⟩

/-- The exact negative-marker record. -/
def markerRecord : Record := [("__FALLBACK__", Value.vbool true)]

/-- A record carrying a truthy `__FALLBACK__` key alongside other fields. -/
def mixedRecord : Record := [("__FALLBACK__", Value.vbool true), ("id", Value.vint 1)]

/-- A concrete positive cached record. -/
def posRecord : Record := [("id", Value.vint 7), ("title", Value.vstr "Hello")]

/-- A store whose only entry is `mixedRecord` under the English key. -/
def mixedStore : Store := ⟨fun k => if k == enKey then some mixedRecord else none, []⟩

/-- A store whose only entry is the exact negative marker under the English key. -/
def markedStore : Store := ⟨fun k => if k == enKey then some markerRecord else none, []⟩

/-- A store whose only entry is `posRecord` under the English key. -/
def posStore : Store := ⟨fun k => if k == enKey then some posRecord else none, []⟩

/-- A store with the negative marker under the French key and a positive
record under the English key. -/
def frMarkedStore : Store :=
  ⟨fun k => if k == frKey then some markerRecord
    else if k == enKey then some posRecord else none, []⟩

/-- A store whose only entry is the empty record under the English key. -/
def emptyEntryStore : Store := ⟨fun k => if k == enKey then some ([] : Record) else none, []⟩

/-- A concrete translation object for the write path. -/
def helloTranslation : Translation :=
  ⟨blogModel, Value.vint 7, 42, "en",
   fun n => if n == "title" then Value.vstr "Hello" else Value.vnone⟩

/-! Helper lemmas about records. -/

theorem Record.get_set_self (r : Record) (k : String) (v : Value) :
    Record.get (Record.set r k v) k = some v := by
  induction r with
  | nil => simp [Record.set, Record.get]
  | cons hd tl ih =>
    obtain ⟨k0, v0⟩ := hd
    by_cases h : k0 = k
    · simp [Record.set, Record.get, h]
    · simp [Record.set, Record.get, h, ih]

theorem Record.get_set_ne (r : Record) (k k' : String) (v : Value) (h : k' ≠ k) :
    Record.get (Record.set r k v) k' = Record.get r k' := by
  have h' : k ≠ k' := fun hh => h hh.symm
  induction r with
  | nil => simp [Record.set, Record.get, h']
  | cons hd tl ih =>
    obtain ⟨k0, v0⟩ := hd
    by_cases h0 : k0 = k
    · subst h0
      simp [Record.set, Record.get, h']
    · simp [Record.set, Record.get, h0, ih]

theorem Record.set_ne_nil (r : Record) (k : String) (v : Value) :
    Record.set r k v ≠ [] := by
  cases r with
  | nil => simp [Record.set]
  | cons hd tl =>
    obtain ⟨k0, v0⟩ := hd
    by_cases h : k0 = k <;> simp [Record.set, h]

theorem Record.foldl_set_ne_nil (names : List String) (f : String → Value)
    (r : Record) (h : r ≠ []) :
    names.foldl (fun acc n => Record.set acc n (f n)) r ≠ [] := by
  induction names generalizing r with
  | nil => simpa using h
  | cons n rest ih =>
    simpa using ih (Record.set r n (f n)) (Record.set_ne_nil r n (f n))

theorem Record.get_foldl_set_of_not_mem (names : List String) (f : String → Value)
    (r : Record) (k : String) (h : k ∉ names) :
    Record.get (names.foldl (fun acc n => Record.set acc n (f n)) r) k =
      Record.get r k := by
  induction names generalizing r with
  | nil => rfl
  | cons n rest ih =>
    have hk : k ≠ n := fun hh => h (hh ▸ List.mem_cons_self n rest)
    have hrest : k ∉ rest := fun hh => h (List.mem_cons_of_mem n hh)
    simpa [ih _ hrest] using Record.get_set_ne r n k (f n) hk

theorem Record.get_foldl_set_of_mem (names : List String) (f : String → Value)
    (r : Record) (k : String) (h : k ∈ names) :
    Record.get (names.foldl (fun acc n => Record.set acc n (f n)) r) k =
      some (f k) := by
  induction names generalizing r with
  | nil => cases h
  | cons n rest ih =>
    by_cases hrest : k ∈ rest
    · simpa using ih (Record.set r n (f n)) hrest
    · have hk : k = n := by
        rcases List.mem_cons.mp h with h' | h'
        · exact h'
        · exact absurd h' hrest
      subst hk
      simp only [List.foldl_cons]
      rw [Record.get_foldl_set_of_not_mem rest f _ k hrest,
        Record.get_set_self]

/-! Decimal representation of a natural number: a fuel-free recursion
equivalent to the fuelled `Nat.toDigitsCore` used by `Nat.repr`, plus the
facts needed for cache-key injectivity (digits are never the separator,
and the representation is injective). -/

theorem natChars_lt (n : Nat) (h : n < 10) : natChars n = [Nat.digitChar n] := by
  rw [natChars]; simp [h]

theorem natChars_ge (n : Nat) (h : ¬ n < 10) :
    natChars n = natChars (n / 10) ++ [Nat.digitChar (n % 10)] := by
  rw [natChars]; simp [h]

theorem toDigitsCore_eq_natChars :
    ∀ (fuel n : Nat) (ds : List Char), n < fuel →
      Nat.toDigitsCore 10 fuel n ds = natChars n ++ ds := by
  intro fuel
  induction fuel with
  | zero => intro n ds h; omega
  | succ fuel ih =>
    intro n ds h
    by_cases h10 : n / 10 = 0
    · have hn : n < 10 := by omega
      have hmod : n % 10 = n := Nat.mod_eq_of_lt hn
      simp only [Nat.toDigitsCore, h10, if_pos]
      rw [natChars_lt n hn, hmod]
      rfl
    · have hn : ¬ n < 10 := by omega
      have hlt : n / 10 < fuel := by
        have hd : n / 10 < n := Nat.div_lt_self (by omega) (by omega)
        omega
      simp only [Nat.toDigitsCore, h10, if_neg, ite_false]
      rw [ih (n / 10) _ hlt, natChars_ge n hn]
      simp

theorem repr_data_eq_natChars (n : Nat) : (Nat.repr n).data = natChars n := by
  show (Nat.toDigits 10 n).asString.data = natChars n
  rw [Nat.toDigits, toDigitsCore_eq_natChars (n + 1) n [] (Nat.lt_succ_self n)]
  simp [List.asString]

theorem digitChar_lt10_injective (m n : Nat) (hm : m < 10) (hn : n < 10)
    (h : Nat.digitChar m = Nat.digitChar n) : m = n := by
  have key : ∀ (a b : Fin 10), Nat.digitChar a = Nat.digitChar b → (a : Nat) = b := by
    decide
  exact key ⟨m, hm⟩ ⟨n, hn⟩ h

theorem digitChar_lt10_ne_dot (m : Nat) (hm : m < 10) : Nat.digitChar m ≠ '.' := by
  have key : ∀ (a : Fin 10), Nat.digitChar a ≠ '.' := by decide
  exact key ⟨m, hm⟩

theorem natChars_ne_nil (n : Nat) : natChars n ≠ [] := by
  rw [natChars]
  by_cases h : n < 10 <;> simp [h]

theorem dot_not_mem_natChars (n : Nat) : '.' ∉ natChars n := by
  induction n using Nat.strong_induction_on with
  | _ n ih =>
    rw [natChars]
    by_cases h : n < 10
    · simpa [h] using (digitChar_lt10_ne_dot n h).symm
    · have hdiv : n / 10 < n := Nat.div_lt_self (by omega) (by omega)
      have hmod := digitChar_lt10_ne_dot (n % 10) (Nat.mod_lt n (by omega))
      simp only [h, dif_neg, not_false_iff, List.mem_append, List.mem_singleton]
      intro hc
      rcases hc with hc | hc
      · exact ih (n / 10) hdiv hc
      · exact hmod hc.symm

theorem natChars_injective :
    ∀ (m n : Nat), natChars m = natChars n → m = n := by
  intro m
  induction m using Nat.strong_induction_on with
  | _ m ih =>
    intro n h
    by_cases hm : m < 10 <;> by_cases hn : n < 10
    · rw [natChars_lt m hm, natChars_lt n hn] at h
      exact digitChar_lt10_injective m n hm hn (List.singleton_inj.mp h)
    · rw [natChars_lt m hm, natChars_ge n hn] at h
      have hlen := congrArg List.length h
      simp only [List.length_append, List.length_singleton] at hlen
      have hnn : 0 < (natChars (n / 10)).length :=
        List.length_pos.mpr (natChars_ne_nil (n / 10))
      omega
    · rw [natChars_ge m hm, natChars_lt n hn] at h
      have hlen := congrArg List.length h
      simp only [List.length_append, List.length_singleton] at hlen
      have hnn : 0 < (natChars (m / 10)).length :=
        List.length_pos.mpr (natChars_ne_nil (m / 10))
      omega
    · rw [natChars_ge m hm, natChars_ge n hn] at h
      have hrev := congrArg List.reverse h
      simp only [List.reverse_append, List.reverse_singleton,
        List.singleton_append, List.cons.injEq, List.reverse_inj] at hrev
      obtain ⟨hdig, hrest⟩ := hrev
      have hmod : m % 10 = n % 10 :=
        digitChar_lt10_injective _ _ (Nat.mod_lt m (by omega))
          (Nat.mod_lt n (by omega)) hdig
      have hdivlt : m / 10 < m := Nat.div_lt_self (by omega) (by omega)
      have hdiv : m / 10 = n / 10 := ih (m / 10) hdivlt (n / 10) hrest
      omega

theorem nat_repr_injective (m n : Nat) (h : Nat.repr m = Nat.repr n) : m = n := by
  apply natChars_injective
  rw [← repr_data_eq_natChars, ← repr_data_eq_natChars, h]

theorem dot_not_mem_repr (n : Nat) : '.' ∉ (Nat.repr n).data := by
  rw [repr_data_eq_natChars]; exact dot_not_mem_natChars n

theorem dotFree_iff (s : String) : dotFree s = true ↔ '.' ∉ s.data := by
  unfold dotFree
  rw [List.all_eq_true]
  constructor
  · intro h hc
    simpa using h '.' hc
  · intro h c hc
    simp only [bne_iff_ne, ne_eq]
    intro hd
    exact h (hd ▸ hc)

theorem sep_split :
    ∀ (xs : List Char) {ys rest1 rest2 : List Char}, '.' ∉ xs → '.' ∉ ys →
      xs ++ '.' :: rest1 = ys ++ '.' :: rest2 → xs = ys ∧ rest1 = rest2 := by
  intro xs
  induction xs with
  | nil =>
    intro ys rest1 rest2 hx hy h
    cases ys with
    | nil => simpa using h
    | cons y ys' =>
      simp only [List.nil_append, List.cons_append, List.cons.injEq] at h
      exfalso
      apply hy
      rw [← h.1]
      exact List.mem_cons_self '.' ys'
  | cons x xs' ih =>
    intro ys rest1 rest2 hx hy h
    cases ys with
    | nil =>
      simp only [List.cons_append, List.nil_append, List.cons.injEq] at h
      exfalso
      apply hx
      rw [h.1]
      exact List.mem_cons_self '.' xs'
    | cons y ys' =>
      simp only [List.cons_append, List.cons.injEq] at h
      have hx' : '.' ∉ xs' := fun hc => hx (List.mem_cons_of_mem x hc)
      have hy' : '.' ∉ ys' := fun hc => hy (List.mem_cons_of_mem y hc)
      obtain ⟨hxy, hsplit⟩ := ih hx' hy' h.2
      exact ⟨by rw [h.1, hxy], hsplit⟩

theorem key_data (m : TModel) (i : Nat) (l : String) :
    (get_translation_cache_key m i l).data =
      ['p', 'a', 'r', 'l', 'e', 'r', '.'] ++ (m.app_label.data ++ '.' ::
        (m.name.data ++ '.' :: ((Nat.repr i).data ++ '.' :: l.data))) := by
  simp only [get_translation_cache_key, String.data_append]
  simp [List.append_assoc]

/-- C4: `get_translation_cache_key` is a pure deterministic function of
(entity-type identity, owner id, language code): identical inputs give
identical strings, and under the precondition that no string component
contains the separator `.`, equal keys force equal components (and hence
distinct triples never collide). -/
theorem get_translation_cache_key_pure_injective
    (m1 m2 : TModel) (i1 i2 : Nat) (l1 l2 : String)
    (ha1 : dotFree m1.app_label = true) (hn1 : dotFree m1.name = true)
    (hl1 : dotFree l1 = true)
    (ha2 : dotFree m2.app_label = true) (hn2 : dotFree m2.name = true)
    (hl2 : dotFree l2 = true) :
    (m1.app_label = m2.app_label ∧ m1.name = m2.name ∧ i1 = i2 ∧ l1 = l2 →
      get_translation_cache_key m1 i1 l1 = get_translation_cache_key m2 i2 l2) ∧
    (get_translation_cache_key m1 i1 l1 = get_translation_cache_key m2 i2 l2 →
      m1.app_label = m2.app_label ∧ m1.name = m2.name ∧ i1 = i2 ∧ l1 = l2) := by
  constructor
  · rintro ⟨h1, h2, h3, h4⟩
    simp [get_translation_cache_key, h1, h2, h3, h4]
  · intro h
    have hd := congrArg String.data h
    rw [key_data, key_data] at hd
    have hd1 := List.append_cancel_left hd
    obtain ⟨e1, hd2⟩ :=
      sep_split _ ((dotFree_iff _).mp ha1) ((dotFree_iff _).mp ha2) hd1
    obtain ⟨e2, hd3⟩ :=
      sep_split _ ((dotFree_iff _).mp hn1) ((dotFree_iff _).mp hn2) hd2
    obtain ⟨e3, e4⟩ :=
      sep_split _ (dot_not_mem_repr i1) (dot_not_mem_repr i2) hd3
    exact ⟨String.ext e1, String.ext e2,
      nat_repr_injective i1 i2 (String.ext e3), String.ext e4⟩

/-- Witness for C4 at a concrete input. -/
theorem get_translation_cache_key_pure_injective_witness :
    dotFree (TModel.mk "blog" "Article" []).app_label = true ∧
    (((TModel.mk "blog" "Article" []).app_label =
        (TModel.mk "blog" "Article" []).app_label ∧
      (TModel.mk "blog" "Article" []).name = (TModel.mk "blog" "Article" []).name ∧
      (42 : Nat) = 42 ∧ "en" = "en" →
      get_translation_cache_key (TModel.mk "blog" "Article" []) 42 "en" =
        get_translation_cache_key (TModel.mk "blog" "Article" []) 42 "en") ∧
    (get_translation_cache_key (TModel.mk "blog" "Article" []) 42 "en" =
        get_translation_cache_key (TModel.mk "blog" "Article" []) 42 "en" →
      (TModel.mk "blog" "Article" []).app_label =
        (TModel.mk "blog" "Article" []).app_label ∧
      (TModel.mk "blog" "Article" []).name = (TModel.mk "blog" "Article" []).name ∧
      (42 : Nat) = 42 ∧ "en" = "en")) :=
  ⟨by decide,
   get_translation_cache_key_pure_injective
     (TModel.mk "blog" "Article" []) (TModel.mk "blog" "Article" []) 42 42 "en" "en"
     (by decide) (by decide) (by decide) (by decide) (by decide) (by decide)⟩

/-! Scenario lemmas characterizing `_get_cached_values` one case at a time. -/

theorem read_disabled (s : Settings) (st : Store) (tc : TransCache)
    (inst : Instance) (lang : String) (ufb : Bool)
    (h : s.PARLER_ENABLE_CACHING = false) :
    _get_cached_values s st tc inst lang ufb = (none, st, tc) := by
  rw [_get_cached_values]
  simp [h]

theorem read_no_pk (s : Settings) (st : Store) (tc : TransCache)
    (inst : Instance) (lang : String) (ufb : Bool)
    (h : inst.pkTruthy = false ∨ inst.adding = true) :
    _get_cached_values s st tc inst lang ufb = (none, st, tc) := by
  rw [_get_cached_values]
  rcases h with h | h <;> simp [h]

theorem read_absent (s : Settings) (st : Store) (tc : TransCache)
    (inst : Instance) (lang : String) (ufb : Bool)
    (he : s.PARLER_ENABLE_CACHING = true) (hpk : inst.pkTruthy = true)
    (ha : inst.adding = false)
    (hd : st.data (get_translation_cache_key inst.translations_model
      inst.pkNat lang) = none) :
    _get_cached_values s st tc inst lang ufb =
      (none,
       { st with log := st.log ++ [CacheOp.get (get_translation_cache_key
          inst.translations_model inst.pkNat lang)] },
       tc) := by
  rw [_get_cached_values]
  simp [he, hpk, ha, Store.get, hd]

theorem read_empty (s : Settings) (st : Store) (tc : TransCache)
    (inst : Instance) (lang : String) (ufb : Bool) (r : Record)
    (he : s.PARLER_ENABLE_CACHING = true) (hpk : inst.pkTruthy = true)
    (ha : inst.adding = false)
    (hd : st.data (get_translation_cache_key inst.translations_model
      inst.pkNat lang) = some r)
    (hr : r.isEmpty = true) :
    _get_cached_values s st tc inst lang ufb =
      (none,
       { st with log := st.log ++ [CacheOp.get (get_translation_cache_key
          inst.translations_model inst.pkNat lang)] },
       tc) := by
  rw [_get_cached_values]
  simp [he, hpk, ha, Store.get, hd, hr]

theorem read_marker_nofb (s : Settings) (st : Store) (tc : TransCache)
    (inst : Instance) (lang : String) (r : Record)
    (he : s.PARLER_ENABLE_CACHING = true) (hpk : inst.pkTruthy = true)
    (ha : inst.adding = false)
    (hd : st.data (get_translation_cache_key inst.translations_model
      inst.pkNat lang) = some r)
    (hr : r.isEmpty = false) (hf : Record.fallbackFlag r = true) :
    _get_cached_values s st tc inst lang false =
      (none,
       { st with log := st.log ++ [CacheOp.get (get_translation_cache_key
          inst.translations_model inst.pkNat lang)] },
       TransCache.set tc lang TransEntry.missing) := by
  rw [_get_cached_values]
  simp [he, hpk, ha, Store.get, hd, hr, hf]

theorem read_marker_fb_self (s : Settings) (st : Store) (tc : TransCache)
    (inst : Instance) (lang : String) (r : Record)
    (he : s.PARLER_ENABLE_CACHING = true) (hpk : inst.pkTruthy = true)
    (ha : inst.adding = false)
    (hd : st.data (get_translation_cache_key inst.translations_model
      inst.pkNat lang) = some r)
    (hr : r.isEmpty = false) (hf : Record.fallbackFlag r = true)
    (hself : (get_language_settings s lang).fallback = lang) :
    _get_cached_values s st tc inst lang true =
      (none,
       { st with log := st.log ++ [CacheOp.get (get_translation_cache_key
          inst.translations_model inst.pkNat lang)] },
       TransCache.set tc lang TransEntry.missing) := by
  rw [_get_cached_values]
  simp [he, hpk, ha, Store.get, hd, hr, hf, hself]

theorem read_marker_fb_other (s : Settings) (st : Store) (tc : TransCache)
    (inst : Instance) (lang : String) (r : Record)
    (he : s.PARLER_ENABLE_CACHING = true) (hpk : inst.pkTruthy = true)
    (ha : inst.adding = false)
    (hd : st.data (get_translation_cache_key inst.translations_model
      inst.pkNat lang) = some r)
    (hr : r.isEmpty = false) (hf : Record.fallbackFlag r = true)
    (hother : (get_language_settings s lang).fallback ≠ lang) :
    _get_cached_values s st tc inst lang true =
      _get_cached_values s
        { st with log := st.log ++ [CacheOp.get (get_translation_cache_key
            inst.translations_model inst.pkNat lang)] }
        (TransCache.set tc lang TransEntry.missing) inst
        (get_language_settings s lang).fallback false := by
  rw [_get_cached_values]
  simp [he, hpk, ha, Store.get, hd, hr, hf, hother]

theorem read_positive (s : Settings) (st : Store) (tc : TransCache)
    (inst : Instance) (lang : String) (ufb : Bool) (r : Record)
    (he : s.PARLER_ENABLE_CACHING = true) (hpk : inst.pkTruthy = true)
    (ha : inst.adding = false)
    (hd : st.data (get_translation_cache_key inst.translations_model
      inst.pkNat lang) = some r)
    (hr : r.isEmpty = false) (hf : Record.fallbackFlag r = false) :
    _get_cached_values s st tc inst lang ufb =
      (some (Record.set (Record.set r "master" (.vobj inst)) "language_code"
        (.vstr lang)),
       { st with log := st.log ++ [CacheOp.get (get_translation_cache_key
          inst.translations_model inst.pkNat lang)] },
       tc) := by
  rw [_get_cached_values]
  simp [he, hpk, ha, Store.get, hd, hr, hf]

/-- A non-fallback read never touches the store data, issues at most one
backend call, and touches the per-instance cache at most at the requested
language. -/
theorem read_nofb_master (s : Settings) (st : Store) (tc : TransCache)
    (inst : Instance) (lang : String) :
    ((_get_cached_values s st tc inst lang false).2.1.data = st.data) ∧
    (∃ ops : List CacheOp,
      (_get_cached_values s st tc inst lang false).2.1.log = st.log ++ ops ∧
      ops.length ≤ 1) ∧
    ((_get_cached_values s st tc inst lang false).2.2 = tc ∨
     (_get_cached_values s st tc inst lang false).2.2 =
       TransCache.set tc lang TransEntry.missing) := by
  by_cases he : s.PARLER_ENABLE_CACHING = true
  · by_cases hpk : inst.pkTruthy = true
    · by_cases hadd : inst.adding = true
      · rw [read_no_pk s st tc inst lang false (Or.inr hadd)]
        exact ⟨rfl, ⟨[], by simp, by simp⟩, Or.inl rfl⟩
      · have ha : inst.adding = false := by
          revert hadd; cases inst.adding <;> simp
        cases hd : st.data (get_translation_cache_key inst.translations_model
            inst.pkNat lang) with
        | none =>
          rw [read_absent s st tc inst lang false he hpk ha hd]
          exact ⟨rfl, ⟨_, rfl, by simp⟩, Or.inl rfl⟩
        | some r =>
          by_cases hr : r.isEmpty = true
          · rw [read_empty s st tc inst lang false r he hpk ha hd hr]
            exact ⟨rfl, ⟨_, rfl, by simp⟩, Or.inl rfl⟩
          · have hr' : r.isEmpty = false := by
              revert hr; cases r.isEmpty <;> simp
            by_cases hf : Record.fallbackFlag r = true
            · rw [read_marker_nofb s st tc inst lang r he hpk ha hd hr' hf]
              exact ⟨rfl, ⟨_, rfl, by simp⟩, Or.inr rfl⟩
            · have hf' : Record.fallbackFlag r = false := by
                revert hf; cases Record.fallbackFlag r <;> simp
              rw [read_positive s st tc inst lang false r he hpk ha hd hr' hf']
              exact ⟨rfl, ⟨_, rfl, by simp⟩, Or.inl rfl⟩
    · have hpk' : inst.pkTruthy = false := by
        revert hpk; cases inst.pkTruthy <;> simp
      rw [read_no_pk s st tc inst lang false (Or.inl hpk')]
      exact ⟨rfl, ⟨[], by simp, by simp⟩, Or.inl rfl⟩
  · have he' : s.PARLER_ENABLE_CACHING = false := by
      revert he; cases s.PARLER_ENABLE_CACHING <;> simp
    rw [read_disabled s st tc inst lang false he']
    exact ⟨rfl, ⟨[], by simp, by simp⟩, Or.inl rfl⟩

/-- The resolved value of a non-fallback read depends only on the store
data, never on the backend log or the per-instance cache. -/
theorem read_nofb_result (s : Settings) (d : String → Option Record)
    (log1 log2 : List CacheOp) (tc1 tc2 : TransCache) (inst : Instance)
    (lang : String) :
    (_get_cached_values s ⟨d, log1⟩ tc1 inst lang false).1 =
      (_get_cached_values s ⟨d, log2⟩ tc2 inst lang false).1 := by
  by_cases he : s.PARLER_ENABLE_CACHING = true
  · by_cases hpk : inst.pkTruthy = true
    · by_cases hadd : inst.adding = true
      · rw [read_no_pk s _ tc1 inst lang false (Or.inr hadd),
          read_no_pk s _ tc2 inst lang false (Or.inr hadd)]
      · have ha : inst.adding = false := by
          revert hadd; cases inst.adding <;> simp
        cases hd : d (get_translation_cache_key inst.translations_model
            inst.pkNat lang) with
        | none =>
          rw [read_absent s _ tc1 inst lang false he hpk ha hd,
            read_absent s _ tc2 inst lang false he hpk ha hd]
        | some r =>
          by_cases hr : r.isEmpty = true
          · rw [read_empty s _ tc1 inst lang false r he hpk ha hd hr,
              read_empty s _ tc2 inst lang false r he hpk ha hd hr]
          · have hr' : r.isEmpty = false := by
              revert hr; cases r.isEmpty <;> simp
            by_cases hf : Record.fallbackFlag r = true
            · rw [read_marker_nofb s _ tc1 inst lang r he hpk ha hd hr' hf,
                read_marker_nofb s _ tc2 inst lang r he hpk ha hd hr' hf]
            · have hf' : Record.fallbackFlag r = false := by
                revert hf; cases Record.fallbackFlag r <;> simp
              rw [read_positive s _ tc1 inst lang false r he hpk ha hd hr' hf',
                read_positive s _ tc2 inst lang false r he hpk ha hd hr' hf']
    · have hpk' : inst.pkTruthy = false := by
        revert hpk; cases inst.pkTruthy <;> simp
      rw [read_no_pk s _ tc1 inst lang false (Or.inl hpk'),
        read_no_pk s _ tc2 inst lang false (Or.inl hpk')]
  · have he' : s.PARLER_ENABLE_CACHING = false := by
      revert he; cases s.PARLER_ENABLE_CACHING <;> simp
    rw [read_disabled s _ tc1 inst lang false he',
      read_disabled s _ tc2 inst lang false he']

theorem isEmpty_false_of_ne_nil {α : Type} (l : List α) (h : l ≠ []) :
    l.isEmpty = false := by
  cases l with
  | nil => exact absurd rfl h
  | cons a l => rfl

theorem delete_foldl_log (keys : List String) (st : Store) :
    ((keys.foldl (fun acc key => Store.delete acc key) st).log) =
      st.log ++ keys.map CacheOp.del := by
  induction keys generalizing st with
  | nil => simp
  | cons k rest ih =>
    simp only [List.foldl_cons, List.map_cons]
    rw [ih]
    simp [Store.delete]

theorem read_log_le (s : Settings) (st : Store) (tc : TransCache)
    (inst : Instance) (lang : String) (ufb : Bool) :
    ((_get_cached_values s st tc inst lang ufb).2.1.log).length ≤
      st.log.length + 2 := by
  cases ufb with
  | false =>
    obtain ⟨-, ⟨ops, hlog, hle⟩, -⟩ := read_nofb_master s st tc inst lang
    rw [hlog]
    simp only [List.length_append]
    omega
  | true =>
    by_cases he : s.PARLER_ENABLE_CACHING = true
    · by_cases hpk : inst.pkTruthy = true
      · by_cases hadd : inst.adding = true
        · rw [read_no_pk s st tc inst lang true (Or.inr hadd)]
          simp
        · have ha : inst.adding = false := by
            revert hadd; cases inst.adding <;> simp
          cases hd : st.data (get_translation_cache_key inst.translations_model
              inst.pkNat lang) with
          | none =>
            rw [read_absent s st tc inst lang true he hpk ha hd]
            simp
          | some r =>
            by_cases hr : r.isEmpty = true
            · rw [read_empty s st tc inst lang true r he hpk ha hd hr]
              simp
            · have hr' : r.isEmpty = false := by
                revert hr; cases r.isEmpty <;> simp
              by_cases hf : Record.fallbackFlag r = true
              · by_cases hself : (get_language_settings s lang).fallback = lang
                · rw [read_marker_fb_self s st tc inst lang r he hpk ha hd hr'
                    hf hself]
                  simp
                · rw [read_marker_fb_other s st tc inst lang r he hpk ha hd hr'
                    hf hself]
                  obtain ⟨-, ⟨ops, hlog, hle⟩, -⟩ := read_nofb_master s
                    { st with log := st.log ++ [CacheOp.get
                        (get_translation_cache_key inst.translations_model
                          inst.pkNat lang)] }
                    (TransCache.set tc lang TransEntry.missing) inst
                    (get_language_settings s lang).fallback
                  rw [hlog]
                  simp only [List.length_append, List.length_singleton]
                  omega
              · have hf' : Record.fallbackFlag r = false := by
                  revert hf; cases Record.fallbackFlag r <;> simp
                rw [read_positive s st tc inst lang true r he hpk ha hd hr' hf']
                simp
      · have hpk' : inst.pkTruthy = false := by
          revert hpk; cases inst.pkTruthy <;> simp
        rw [read_no_pk s st tc inst lang true (Or.inl hpk')]
        simp
    · have he' : s.PARLER_ENABLE_CACHING = false := by
        revert he; cases s.PARLER_ENABLE_CACHING <;> simp
      rw [read_disabled s st tc inst lang true he']
      simp

/-! Claim C1. -/

/-- C1 counterexample: the record `{"__FALLBACK__": true, "id": 1}` is not
literally the negative-marker mapping, yet the read path treats it as
negative — it returns no result and records `MISSING` for the language —
rather than as positive translation data. -/
theorem negative_marker_shape_counterexample :
    mixedRecord ≠ markerRecord ∧
    (_get_cached_values settingsOn mixedStore emptyTC article42 "en" false).1 =
      none ∧
    (_get_cached_values settingsOn mixedStore emptyTC article42 "en" false).2.2
      "en" = some TransEntry.missing := by
  refine ⟨by decide, ?_, ?_⟩
  · rw [read_marker_nofb settingsOn mixedStore emptyTC article42 "en"
      mixedRecord (by decide) (by decide) (by decide) (by decide) (by decide)
      (by decide)]
  · rw [read_marker_nofb settingsOn mixedStore emptyTC article42 "en"
      mixedRecord (by decide) (by decide) (by decide) (by decide) (by decide)
      (by decide)]
    simp [TransCache.set]

/-- C1 amended: a stored nonempty record is interpreted as negative exactly
when its `__FALLBACK__` key holds a truthy value — in particular the exact
mapping `{"__FALLBACK__": true}` is negative, while any record whose
`__FALLBACK__` key is absent or falsy is treated as positive translation
data (returned with the computed fields attached), and no record shape
raises an error. -/
theorem negative_marker_truthy_iff (s : Settings) (st : Store) (tc : TransCache)
    (inst : Instance) (lang : String) (r : Record)
    (he : s.PARLER_ENABLE_CACHING = true) (hpk : inst.pkTruthy = true)
    (ha : inst.adding = false)
    (hd : st.data (get_translation_cache_key inst.translations_model
      inst.pkNat lang) = some r)
    (hr : r.isEmpty = false) :
    (r = markerRecord → Record.fallbackFlag r = true) ∧
    (Record.fallbackFlag r = true →
      (_get_cached_values s st tc inst lang false).1 = none) ∧
    (Record.fallbackFlag r = false →
      (_get_cached_values s st tc inst lang false).1 =
        some (Record.set (Record.set r "master" (.vobj inst)) "language_code"
          (.vstr lang))) := by
  refine ⟨?_, ?_, ?_⟩
  · intro hmark
    subst hmark
    decide
  · intro hf
    rw [read_marker_nofb s st tc inst lang r he hpk ha hd hr hf]
  · intro hf
    rw [read_positive s st tc inst lang false r he hpk ha hd hr hf]

/-- Witness for the amended C1 at the concrete marker store. -/
theorem negative_marker_truthy_iff_witness :
    settingsOn.PARLER_ENABLE_CACHING = true ∧
    ((markerRecord = markerRecord → Record.fallbackFlag markerRecord = true) ∧
     (Record.fallbackFlag markerRecord = true →
       (_get_cached_values settingsOn markedStore emptyTC article42 "en"
         false).1 = none) ∧
     (Record.fallbackFlag markerRecord = false →
       (_get_cached_values settingsOn markedStore emptyTC article42 "en"
         false).1 =
         some (Record.set (Record.set markerRecord "master" (.vobj article42))
           "language_code" (.vstr "en")))) :=
  ⟨by decide,
   negative_marker_truthy_iff settingsOn markedStore emptyTC article42 "en"
     markerRecord (by decide) (by decide) (by decide) (by decide) (by decide)⟩

/-! Claim C2. -/

/-- C2 counterexample: with the global caching flag false,
`_delete_cached_translations` still contacts the external store — it issues
one delete call per available language of a persisted object (the function
has no caching-enabled check). -/
theorem disabled_transparency_counterexample :
    (_delete_cached_translations cleanStore article42).log ≠ cleanStore.log ∧
    (_delete_cached_translations cleanStore article42).log =
      [CacheOp.del enKey, CacheOp.del frKey] := by
  constructor <;> decide

/-- C2 amended: with the global flag false, `_cache_translation`,
`_cache_translation_needs_fallback` and `_delete_cached_translation`
perform zero store calls (the store is returned unchanged) and every read
returns no result with store and per-instance cache untouched;
`_delete_cached_translations`, however, always issues one delete call per
object cache key, even when caching is disabled. -/
theorem disabled_transparency (s : Settings) (st : Store) (tc : TransCache)
    (inst : Instance) (tr : Translation) (lang fname : String) (ufb : Bool)
    (t : Timeout) (h : s.PARLER_ENABLE_CACHING = false) :
    _cache_translation s st tr t = st ∧
    _cache_translation_needs_fallback s st inst lang t = st ∧
    _delete_cached_translation s st tr = st ∧
    _get_cached_values s st tc inst lang ufb = (none, st, tc) ∧
    get_cached_translation s st tc inst lang ufb = (none, st, tc) ∧
    get_cached_translated_field s st tc inst lang fname ufb =
      (.vnone, st, tc) ∧
    (_delete_cached_translations st inst).log =
      st.log ++ (get_object_cache_keys inst).map CacheOp.del := by
  have hread := read_disabled s st tc inst lang ufb h
  refine ⟨?_, ?_, ?_, hread, ?_, ?_, ?_⟩
  · simp [_cache_translation, h]
  · simp [_cache_translation_needs_fallback, h]
  · simp [_delete_cached_translation, h]
  · simp [get_cached_translation, hread, pyTruthyValues]
  · simp [get_cached_translated_field, hread, pyTruthyValues]
  · exact delete_foldl_log _ st

/-- Witness for the amended C2 at concrete inputs. -/
theorem disabled_transparency_witness :
    settingsOff.PARLER_ENABLE_CACHING = false ∧
    (_cache_translation settingsOff cleanStore helloTranslation
        Timeout.defaultTimeout = cleanStore ∧
     _cache_translation_needs_fallback settingsOff cleanStore article42 "en"
        Timeout.defaultTimeout = cleanStore ∧
     _delete_cached_translation settingsOff cleanStore helloTranslation =
        cleanStore ∧
     _get_cached_values settingsOff cleanStore emptyTC article42 "en" false =
        (none, cleanStore, emptyTC) ∧
     get_cached_translation settingsOff cleanStore emptyTC article42 "en"
        false = (none, cleanStore, emptyTC) ∧
     get_cached_translated_field settingsOff cleanStore emptyTC article42 "en"
        "title" false = (.vnone, cleanStore, emptyTC) ∧
     (_delete_cached_translations cleanStore article42).log =
        cleanStore.log ++ (get_object_cache_keys article42).map CacheOp.del) :=
  ⟨by decide,
   disabled_transparency settingsOff cleanStore emptyTC article42
     helloTranslation "en" "title" false Timeout.defaultTimeout (by decide)⟩

/-! Claim C6. -/

/-- C6: for an object without an assigned identity (falsy primary key or
pending insertion), key enumeration returns the empty sequence, the read
path returns no result leaving store and per-instance cache untouched, and
the negative-marker write performs no store call. -/
theorem no_identity_noops (s : Settings) (st : Store) (tc : TransCache)
    (inst : Instance) (lang fname : String) (ufb : Bool) (t : Timeout)
    (h : inst.pkTruthy = false ∨ inst.adding = true) :
    get_object_cache_keys inst = [] ∧
    _get_cached_values s st tc inst lang ufb = (none, st, tc) ∧
    get_cached_translation s st tc inst lang ufb = (none, st, tc) ∧
    get_cached_translated_field s st tc inst lang fname ufb =
      (.vnone, st, tc) ∧
    _cache_translation_needs_fallback s st inst lang t = st := by
  have hread := read_no_pk s st tc inst lang ufb h
  refine ⟨?_, hread, ?_, ?_, ?_⟩
  · rcases h with h | h <;> simp [get_object_cache_keys, h]
  · simp [get_cached_translation, hread, pyTruthyValues]
  · simp [get_cached_translated_field, hread, pyTruthyValues]
  · rcases h with h | h <;> simp [_cache_translation_needs_fallback, h]

/-- Witness for C6 at a concrete unpersisted object. -/
theorem no_identity_noops_witness :
    (draftArticle.pkTruthy = false ∨ draftArticle.adding = true) ∧
    (get_object_cache_keys draftArticle = [] ∧
     _get_cached_values settingsOn cleanStore emptyTC draftArticle "en" true =
        (none, cleanStore, emptyTC) ∧
     get_cached_translation settingsOn cleanStore emptyTC draftArticle "en"
        true = (none, cleanStore, emptyTC) ∧
     get_cached_translated_field settingsOn cleanStore emptyTC draftArticle
        "en" "title" true = (.vnone, cleanStore, emptyTC) ∧
     _cache_translation_needs_fallback settingsOn cleanStore draftArticle "en"
        Timeout.defaultTimeout = cleanStore) :=
  ⟨Or.inl (by decide),
   no_identity_noops settingsOn cleanStore emptyTC draftArticle "en" "title"
     true Timeout.defaultTimeout (Or.inl (by decide))⟩

/-! Claim C3. -/

/-- C3: when the cache entry for the requested language is the negative
marker: a non-fallback read returns no result; a fallback-enabled read
returns the result of a single non-fallback read for the configured
fallback language when it differs; when the configured fallback equals the
requested language the read stops after the single backend get, with no
result and no recursion; and on every input the read issues at most two
backend calls in total (at most one fallback hop). -/
theorem negative_marker_fallback_protocol (s : Settings) (st : Store)
    (tc : TransCache) (inst : Instance) (lang : String) (r : Record)
    (he : s.PARLER_ENABLE_CACHING = true) (hpk : inst.pkTruthy = true)
    (ha : inst.adding = false)
    (hd : st.data (get_translation_cache_key inst.translations_model
      inst.pkNat lang) = some r)
    (hr : r.isEmpty = false) (hf : Record.fallbackFlag r = true) :
    (_get_cached_values s st tc inst lang false).1 = none ∧
    ((get_language_settings s lang).fallback ≠ lang →
      (_get_cached_values s st tc inst lang true).1 =
        (_get_cached_values s st tc inst
          (get_language_settings s lang).fallback false).1) ∧
    ((get_language_settings s lang).fallback = lang →
      _get_cached_values s st tc inst lang true =
        (none,
         { st with log := st.log ++ [CacheOp.get (get_translation_cache_key
            inst.translations_model inst.pkNat lang)] },
         TransCache.set tc lang TransEntry.missing)) ∧
    (∀ (st' : Store) (tc' : TransCache) (l' : String) (b : Bool),
      ((_get_cached_values s st' tc' inst l' b).2.1.log).length ≤
        st'.log.length + 2) := by
  refine ⟨?_, ?_, ?_, ?_⟩
  · rw [read_marker_nofb s st tc inst lang r he hpk ha hd hr hf]
  · intro hother
    rw [read_marker_fb_other s st tc inst lang r he hpk ha hd hr hf hother]
    exact read_nofb_result s st.data _ st.log _ tc inst _
  · intro hself
    exact read_marker_fb_self s st tc inst lang r he hpk ha hd hr hf hself
  · intro st' tc' l' b
    exact read_log_le s st' tc' inst l' b

/-- Witness for C3 at the concrete self-referential marker store. -/
theorem negative_marker_fallback_protocol_witness :
    Record.fallbackFlag markerRecord = true ∧
    ((_get_cached_values settingsOn markedStore emptyTC article42 "en"
        false).1 = none ∧
     ((get_language_settings settingsOn "en").fallback ≠ "en" →
       (_get_cached_values settingsOn markedStore emptyTC article42 "en"
          true).1 =
         (_get_cached_values settingsOn markedStore emptyTC article42
           (get_language_settings settingsOn "en").fallback false).1) ∧
     ((get_language_settings settingsOn "en").fallback = "en" →
       _get_cached_values settingsOn markedStore emptyTC article42 "en" true =
         (none,
          { markedStore with log := markedStore.log ++
             [CacheOp.get (get_translation_cache_key
               article42.translations_model article42.pkNat "en")] },
          TransCache.set emptyTC "en" TransEntry.missing)) ∧
     (∀ (st' : Store) (tc' : TransCache) (l' : String) (b : Bool),
       ((_get_cached_values settingsOn st' tc' article42 l' b).2.1.log).length
         ≤ st'.log.length + 2)) :=
  ⟨by decide,
   negative_marker_fallback_protocol settingsOn markedStore emptyTC article42
     "en" markerRecord (by decide) (by decide) (by decide) (by decide)
     (by decide) (by decide)⟩

/-! Claim C8. -/

/-- C8: the `MISSING` sentinel is falsy in every boolean context (both its
Python 2 `__nonzero__` and Python 3 `__bool__` protocols, and as a
per-instance cache entry), and every negative-marker hit for the requested
language records `MISSING` in the per-instance translations cache,
whatever `use_fallback` is and whatever the fallback lookup then yields. -/
theorem missing_falsy_and_marker_side_effect (s : Settings) (st : Store)
    (tc : TransCache) (inst : Instance) (lang : String) (r : Record)
    (ufb : Bool)
    (he : s.PARLER_ENABLE_CACHING = true) (hpk : inst.pkTruthy = true)
    (ha : inst.adding = false)
    (hd : st.data (get_translation_cache_key inst.translations_model
      inst.pkNat lang) = some r)
    (hr : r.isEmpty = false) (hf : Record.fallbackFlag r = true) :
    MISSING.boolMethod = false ∧ MISSING.nonzeroMethod = false ∧
    TransEntry.pyBool TransEntry.missing = false ∧
    (_get_cached_values s st tc inst lang ufb).2.2 lang =
      some TransEntry.missing := by
  refine ⟨rfl, rfl, rfl, ?_⟩
  cases ufb with
  | false =>
    rw [read_marker_nofb s st tc inst lang r he hpk ha hd hr hf]
    simp [TransCache.set]
  | true =>
    by_cases hself : (get_language_settings s lang).fallback = lang
    · rw [read_marker_fb_self s st tc inst lang r he hpk ha hd hr hf hself]
      simp [TransCache.set]
    · rw [read_marker_fb_other s st tc inst lang r he hpk ha hd hr hf hself]
      obtain ⟨-, -, htc⟩ := read_nofb_master s
        { st with log := st.log ++ [CacheOp.get (get_translation_cache_key
            inst.translations_model inst.pkNat lang)] }
        (TransCache.set tc lang TransEntry.missing) inst
        (get_language_settings s lang).fallback
      rcases htc with htc | htc <;> rw [htc] <;>
        simp [TransCache.set, Ne.symm hself]

/-- Witness for C8: marker hit for French, fallback to English succeeds,
MISSING is still recorded for French. -/
theorem missing_falsy_and_marker_side_effect_witness :
    Record.fallbackFlag markerRecord = true ∧
    (MISSING.boolMethod = false ∧ MISSING.nonzeroMethod = false ∧
     TransEntry.pyBool TransEntry.missing = false ∧
     (_get_cached_values settingsOn frMarkedStore emptyTC article42 "fr"
        true).2.2 "fr" = some TransEntry.missing) :=
  ⟨by decide,
   missing_falsy_and_marker_side_effect settingsOn frMarkedStore emptyTC
     article42 "fr" markerRecord true (by decide) (by decide) (by decide)
     (by decide) (by decide) (by decide)⟩

/-! Claim C10. -/

/-- C10: a stored empty (falsy) record behaves at the read path exactly
like an absent entry: no result, per-instance cache untouched, only the
single backend get logged — identical to the output on a store where the
key is absent — and the public readers return no result as well. -/
theorem empty_entry_like_absent (s : Settings) (st st2 : Store)
    (tc : TransCache) (inst : Instance) (lang fname : String) (ufb : Bool)
    (he : s.PARLER_ENABLE_CACHING = true) (hpk : inst.pkTruthy = true)
    (ha : inst.adding = false)
    (hd : st.data (get_translation_cache_key inst.translations_model
      inst.pkNat lang) = some [])
    (hd2 : st2.data (get_translation_cache_key inst.translations_model
      inst.pkNat lang) = none) :
    _get_cached_values s st tc inst lang ufb =
      (none,
       { st with log := st.log ++ [CacheOp.get (get_translation_cache_key
          inst.translations_model inst.pkNat lang)] },
       tc) ∧
    _get_cached_values s st2 tc inst lang ufb =
      (none,
       { st2 with log := st2.log ++ [CacheOp.get (get_translation_cache_key
          inst.translations_model inst.pkNat lang)] },
       tc) ∧
    (get_cached_translation s st tc inst lang ufb).1 = none ∧
    (get_cached_translated_field s st tc inst lang fname ufb).1 = .vnone := by
  have hedge := read_empty s st tc inst lang ufb [] he hpk ha hd rfl
  refine ⟨hedge, read_absent s st2 tc inst lang ufb he hpk ha hd2, ?_, ?_⟩
  · simp [get_cached_translation, hedge, pyTruthyValues]
  · simp [get_cached_translated_field, hedge, pyTruthyValues]

/-- Witness for C10 at the concrete empty-record store. -/
theorem empty_entry_like_absent_witness :
    emptyEntryStore.data (get_translation_cache_key
      article42.translations_model article42.pkNat "en") = some [] ∧
    (_get_cached_values settingsOn emptyEntryStore emptyTC article42 "en"
        true =
      (none,
       { emptyEntryStore with log := emptyEntryStore.log ++
          [CacheOp.get (get_translation_cache_key article42.translations_model
            article42.pkNat "en")] },
       emptyTC) ∧
     _get_cached_values settingsOn cleanStore emptyTC article42 "en" true =
      (none,
       { cleanStore with log := cleanStore.log ++
          [CacheOp.get (get_translation_cache_key article42.translations_model
            article42.pkNat "en")] },
       emptyTC) ∧
     (get_cached_translation settingsOn emptyEntryStore emptyTC article42 "en"
        true).1 = none ∧
     (get_cached_translated_field settingsOn emptyEntryStore emptyTC article42
        "en" "title" true).1 = .vnone) :=
  ⟨by decide,
   empty_entry_like_absent settingsOn emptyEntryStore cleanStore emptyTC
     article42 "en" "title" true (by decide) (by decide) (by decide)
     (by decide) (by decide)⟩

/-! Claim C5. -/

/-- C5: round-trip — writing a translation via `_cache_translation` and
reading it back via the read path for the same (object, language) yields a
mapping holding exactly the translation's id, every declared translated
field's value, plus the computed `master` (the owning object) and
`language_code` (the requested language) fields, and nothing else. -/
theorem cache_translation_roundtrip (s : Settings) (st : Store)
    (tc : TransCache) (inst : Instance) (tr : Translation) (ufb : Bool)
    (t : Timeout)
    (he : s.PARLER_ENABLE_CACHING = true)
    (hlink : inst.translations_model = tr.model)
    (hpk : inst.pkTruthy = true) (hpkeq : inst.pkNat = tr.master_id)
    (ha : inst.adding = false)
    (hid : "id" ∉ tr.model.translated_fields)
    (hfb : "__FALLBACK__" ∉ tr.model.translated_fields)
    (hm : "master" ∉ tr.model.translated_fields)
    (hlc : "language_code" ∉ tr.model.translated_fields) :
    ∃ res : Record,
      (_get_cached_values s (_cache_translation s st tr t) tc inst
        tr.language_code ufb).1 = some res ∧
      Record.get res "id" = some tr.id ∧
      (∀ name ∈ tr.model.translated_fields,
        Record.get res name = some (tr.attrs name)) ∧
      Record.get res "master" = some (.vobj inst) ∧
      Record.get res "language_code" = some (.vstr tr.language_code) ∧
      (∀ k, k ≠ "id" → k ∉ tr.model.translated_fields → k ≠ "master" →
        k ≠ "language_code" → Record.get res k = none) := by
  have hkey : get_translation_cache_key inst.translations_model inst.pkNat
      tr.language_code =
      get_translation_cache_key tr.model tr.master_id tr.language_code := by
    rw [hlink, hpkeq]
  have hd : (_cache_translation s st tr t).data
      (get_translation_cache_key inst.translations_model inst.pkNat
        tr.language_code) =
      some (tr.model.translated_fields.foldl
        (fun acc name => Record.set acc name (tr.attrs name))
        [("id", tr.id)]) := by
    simp [_cache_translation, he, Store.set, hkey]
  have hne : tr.model.translated_fields.foldl
      (fun acc name => Record.set acc name (tr.attrs name))
      [("id", tr.id)] ≠ [] :=
    Record.foldl_set_ne_nil _ _ _ (by simp)
  have hrempty : (tr.model.translated_fields.foldl
      (fun acc name => Record.set acc name (tr.attrs name))
      [("id", tr.id)]).isEmpty = false := isEmpty_false_of_ne_nil _ hne
  have hget_fb : Record.get (tr.model.translated_fields.foldl
      (fun acc name => Record.set acc name (tr.attrs name))
      [("id", tr.id)]) "__FALLBACK__" = none := by
    rw [Record.get_foldl_set_of_not_mem _ _ _ _ hfb]
    simp [Record.get]
  have hflag : Record.fallbackFlag (tr.model.translated_fields.foldl
      (fun acc name => Record.set acc name (tr.attrs name))
      [("id", tr.id)]) = false := by
    simp [Record.fallbackFlag, hget_fb, Value.truthy]
  rw [read_positive s _ tc inst tr.language_code ufb _ he hpk ha hd
    hrempty hflag]
  refine ⟨_, rfl, ?_, ?_, ?_, ?_, ?_⟩
  · rw [Record.get_set_ne _ _ _ _ (by decide),
      Record.get_set_ne _ _ _ _ (by decide),
      Record.get_foldl_set_of_not_mem _ _ _ _ hid]
    simp [Record.get]
  · intro name hmem
    have h1 : name ≠ "language_code" := fun hh => hlc (hh ▸ hmem)
    have h2 : name ≠ "master" := fun hh => hm (hh ▸ hmem)
    rw [Record.get_set_ne _ _ _ _ h1, Record.get_set_ne _ _ _ _ h2,
      Record.get_foldl_set_of_mem _ _ _ _ hmem]
  · rw [Record.get_set_ne _ _ _ _ (by decide), Record.get_set_self]
  · rw [Record.get_set_self]
  · intro k hk_id hk_mem hk_master hk_lc
    rw [Record.get_set_ne _ _ _ _ hk_lc, Record.get_set_ne _ _ _ _ hk_master,
      Record.get_foldl_set_of_not_mem _ _ _ _ hk_mem]
    simp [Record.get, Ne.symm hk_id]

/-- Witness for C5 at the concrete translation write. -/
theorem cache_translation_roundtrip_witness :
    article42.translations_model = helloTranslation.model ∧
    (∃ res : Record,
      (_get_cached_values settingsOn
        (_cache_translation settingsOn cleanStore helloTranslation
          Timeout.defaultTimeout) emptyTC article42
        helloTranslation.language_code false).1 = some res ∧
      Record.get res "id" = some helloTranslation.id ∧
      (∀ name ∈ helloTranslation.model.translated_fields,
        Record.get res name = some (helloTranslation.attrs name)) ∧
      Record.get res "master" = some (.vobj article42) ∧
      Record.get res "language_code" =
        some (.vstr helloTranslation.language_code) ∧
      (∀ k, k ≠ "id" → k ∉ helloTranslation.model.translated_fields →
        k ≠ "master" → k ≠ "language_code" → Record.get res k = none)) :=
  ⟨by decide,
   cache_translation_roundtrip settingsOn cleanStore emptyTC article42
     helloTranslation false Timeout.defaultTimeout (by decide) (by decide)
     (by decide) (by decide) (by decide) (by decide) (by decide) (by decide)
     (by decide)⟩

/-! Claim C7. -/

/-- A field read on a cached positive record resolves against the stored
record with the two computed fields attached. -/
theorem gctf_positive (s : Settings) (st : Store) (tc : TransCache)
    (inst : Instance) (lang fname : String) (ufb : Bool) (r : Record)
    (he : s.PARLER_ENABLE_CACHING = true) (hpk : inst.pkTruthy = true)
    (ha : inst.adding = false)
    (hd : st.data (get_translation_cache_key inst.translations_model
      inst.pkNat lang) = some r)
    (hr : r.isEmpty = false) (hf : Record.fallbackFlag r = false) :
    (get_cached_translated_field s st tc inst lang fname ufb).1 =
      (Record.get (Record.set (Record.set r "master" (.vobj inst))
        "language_code" (.vstr lang)) fname).getD .vnone := by
  simp only [get_cached_translated_field]
  rw [read_positive s st tc inst lang ufb r he hpk ha hd hr hf]
  have hnn : Record.set (Record.set r "master" (.vobj inst)) "language_code"
      (.vstr lang) ≠ [] := Record.set_ne_nil _ _ _
  simp [pyTruthyValues, isEmpty_false_of_ne_nil _ hnn]

/-- C7 counterexample: `"master"` is absent from the stored positive
record, yet `get_cached_translated_field` returns the owning object, not
"no result". -/
theorem cached_field_absent_counterexample :
    Record.get posRecord "master" = none ∧
    (get_cached_translated_field settingsOn posStore emptyTC article42 "en"
      "master" false).1 = Value.vobj article42 ∧
    Value.vobj article42 ≠ Value.vnone := by
  refine ⟨by decide, ?_, by decide⟩
  rw [gctf_positive settingsOn posStore emptyTC article42 "en" "master" false
    posRecord (by decide) (by decide) (by decide) (by decide) (by decide)
    (by decide)]
  decide

/-- C7 amended: on a cached positive record, `get_cached_translated_field`
returns the stored value for every field name present in the record and
"no result" (None) for every absent field name — never an error — except
the two computed names `master` and `language_code`, which return the
owning object and the effective language code. -/
theorem cached_field_lookup (s : Settings) (st : Store) (tc : TransCache)
    (inst : Instance) (lang fname : String) (ufb : Bool) (r : Record)
    (he : s.PARLER_ENABLE_CACHING = true) (hpk : inst.pkTruthy = true)
    (ha : inst.adding = false)
    (hd : st.data (get_translation_cache_key inst.translations_model
      inst.pkNat lang) = some r)
    (hr : r.isEmpty = false) (hf : Record.fallbackFlag r = false)
    (hfm : fname ≠ "master") (hflc : fname ≠ "language_code") :
    (Record.get r fname = none →
      (get_cached_translated_field s st tc inst lang fname ufb).1 =
        .vnone) ∧
    (∀ v, Record.get r fname = some v →
      (get_cached_translated_field s st tc inst lang fname ufb).1 = v) ∧
    (get_cached_translated_field s st tc inst lang "master" ufb).1 =
      .vobj inst ∧
    (get_cached_translated_field s st tc inst lang "language_code" ufb).1 =
      .vstr lang := by
  have hbase := gctf_positive s st tc inst lang fname ufb r he hpk ha hd hr hf
  rw [Record.get_set_ne _ _ _ _ hflc, Record.get_set_ne _ _ _ _ hfm] at hbase
  refine ⟨?_, ?_, ?_, ?_⟩
  · intro hnone
    rw [hbase, hnone]
    rfl
  · intro v hsome
    rw [hbase, hsome]
    rfl
  · rw [gctf_positive s st tc inst lang "master" ufb r he hpk ha hd hr hf,
      Record.get_set_ne _ _ _ _ (by decide), Record.get_set_self]
    rfl
  · rw [gctf_positive s st tc inst lang "language_code" ufb r he hpk ha hd
      hr hf, Record.get_set_self]
    rfl

/-- Witness for the amended C7 at the concrete positive record. -/
theorem cached_field_lookup_witness :
    ("subtitle" : String) ≠ "master" ∧
    ((Record.get posRecord "subtitle" = none →
      (get_cached_translated_field settingsOn posStore emptyTC article42 "en"
        "subtitle" false).1 = .vnone) ∧
     (∀ v, Record.get posRecord "subtitle" = some v →
      (get_cached_translated_field settingsOn posStore emptyTC article42 "en"
        "subtitle" false).1 = v) ∧
     (get_cached_translated_field settingsOn posStore emptyTC article42 "en"
        "master" false).1 = .vobj article42 ∧
     (get_cached_translated_field settingsOn posStore emptyTC article42 "en"
        "language_code" false).1 = .vstr "en") :=
  ⟨by decide,
   cached_field_lookup settingsOn posStore emptyTC article42 "en" "subtitle"
     false posRecord (by decide) (by decide) (by decide) (by decide)
     (by decide) (by decide) (by decide) (by decide)⟩

/-! Claim C9. -/

/-- C9: a fallback-enabled read that resolves through the fallback language
(requested language negative, fallback language positive) returns a mapping
whose `language_code` field equals the fallback language code — not the
originally requested one — while `master` still equals the owning object. -/
theorem fallback_resolution_language_code (s : Settings) (st : Store)
    (tc : TransCache) (inst : Instance) (lang : String) (r rfb : Record)
    (he : s.PARLER_ENABLE_CACHING = true) (hpk : inst.pkTruthy = true)
    (ha : inst.adding = false)
    (hd : st.data (get_translation_cache_key inst.translations_model
      inst.pkNat lang) = some r)
    (hr : r.isEmpty = false) (hf : Record.fallbackFlag r = true)
    (hother : (get_language_settings s lang).fallback ≠ lang)
    (hdfb : st.data (get_translation_cache_key inst.translations_model
      inst.pkNat (get_language_settings s lang).fallback) = some rfb)
    (hrfb : rfb.isEmpty = false) (hffb : Record.fallbackFlag rfb = false) :
    ∃ res : Record,
      (_get_cached_values s st tc inst lang true).1 = some res ∧
      Record.get res "language_code" =
        some (.vstr (get_language_settings s lang).fallback) ∧
      Record.get res "language_code" ≠ some (.vstr lang) ∧
      Record.get res "master" = some (.vobj inst) := by
  rw [read_marker_fb_other s st tc inst lang r he hpk ha hd hr hf hother]
  rw [read_positive s
    ⟨st.data, st.log ++ [CacheOp.get (get_translation_cache_key
      inst.translations_model inst.pkNat lang)]⟩
    (TransCache.set tc lang TransEntry.missing) inst
    (get_language_settings s lang).fallback false rfb he hpk ha hdfb hrfb
    hffb]
  refine ⟨_, rfl, ?_, ?_, ?_⟩
  · rw [Record.get_set_self]
  · rw [Record.get_set_self]
    simp [hother]
  · rw [Record.get_set_ne _ _ _ _ (by decide), Record.get_set_self]

/-- Witness for C9: French negative marker falls back to the positive
English record. -/
theorem fallback_resolution_language_code_witness :
    (get_language_settings settingsOn "fr").fallback ≠ "fr" ∧
    (∃ res : Record,
      (_get_cached_values settingsOn frMarkedStore emptyTC article42 "fr"
        true).1 = some res ∧
      Record.get res "language_code" =
        some (.vstr (get_language_settings settingsOn "fr").fallback) ∧
      Record.get res "language_code" ≠ some (.vstr "fr") ∧
      Record.get res "master" = some (.vobj article42)) :=
  ⟨by decide,
   fallback_resolution_language_code settingsOn frMarkedStore emptyTC
     article42 "fr" markerRecord posRecord (by decide) (by decide)
     (by decide) (by decide) (by decide) (by decide) (by decide) (by decide)
     (by decide) (by decide)⟩

end Parler
